import Mathlib

/-!
Verification development for the UAS dialog-lifecycle core (`dialog_server.go`).

The Go source is shallowly embedded below: each Go function of the file
becomes a Lean definition of the same name (receiver first), Go pointers
that may be nil become `Option`, the nondeterministic environment that the
transaction layer provides (pending CANCEL, transaction done, send
success/failure, select winners in the confirmation wait) is passed in as
explicit environment values, and each operation returns its outcome, the
updated world and the chronological list of externally visible events.
Helpers from the `sip` package that are not part of the analysed file are
modelled from the specification and marked as such in their doc comments.
-/

namespace SipGo

/-- Name-addr value of a From/To/Contact header: display name, address
(kept abstract as a string) and parameters (a `tag` parameter carries the
dialog correlation tag). Mirrors `sip.FromHeader`/`sip.ToHeader`/
`sip.ContactHeader` fields used by the source. -/
structure NameAddr where
  displayName : String
  address : String
  params : List (String × String)
deriving DecidableEq, Repr

/-- Lookup of a parameter. Go map indexing `Params["tag"]` returns the zero
value `""` for a missing key; `paramD` mirrors that, `param?` mirrors the
checked lookup. -/
def NameAddr.param? (n : NameAddr) (k : String) : Option String :=
  n.params.lookup k

def NameAddr.paramD (n : NameAddr) (k : String) : String :=
  (n.params.lookup k).getD ""

/-- A SIP message header, as far as the analysed file inspects headers:
typed From/To/Call-ID/Contact headers plus generic name/value headers
(`Record-Route` on the INVITE, `Route` built by `sip.NewHeader`). -/
inductive SipHeader where
  | fromH (h : NameAddr)
  | toH (h : NameAddr)
  | callID (v : String)
  | contact (h : NameAddr)
  | generic (name value : String)
deriving DecidableEq, Repr

/-- Wire name of a header, used by `GetHeaders(name)`. -/
def SipHeader.name : SipHeader → String
  | .fromH _ => "From"
  | .toH _ => "To"
  | .callID _ => "Call-ID"
  | .contact _ => "Contact"
  | .generic n _ => n

/-- Header `Value()` rendering: generic headers carry their value verbatim;
typed headers render their name-addr (the exact rendering of typed headers
is irrelevant to the claims, only generic values are compared). -/
def SipHeader.value : SipHeader → String
  | .fromH h => h.displayName ++ "<" ++ h.address ++ ">"
  | .toH h => h.displayName ++ "<" ++ h.address ++ ">"
  | .callID v => v
  | .contact h => h.displayName ++ "<" ++ h.address ++ ">"
  | .generic _ v => v

/-- A SIP request as the analysed file consumes it: method, recipient URI
(the request target set by `sip.NewRequest`), an optional resolved
destination (set by `SetDestination`) and the header list in append
order. -/
structure Request where
  method : String
  recipient : String
  destination : Option String := none
  headers : List SipHeader := []
deriving DecidableEq, Repr

/-- Go `req.AppendHeader(h)`. -/
def Request.appendHeader (r : Request) (h : SipHeader) : Request :=
  { r with headers := r.headers ++ [h] }

/-- Go `req.Contact()`: first Contact header, nil when absent. -/
def Request.contactHdr (r : Request) : Option NameAddr :=
  r.headers.findSome? fun h => match h with | .contact c => some c | _ => none

/-- Go `req.From()`: first From header, nil when absent. -/
def Request.fromHdr (r : Request) : Option NameAddr :=
  r.headers.findSome? fun h => match h with | .fromH c => some c | _ => none

/-- Go `req.To()`: first To header, nil when absent. -/
def Request.toHdr (r : Request) : Option NameAddr :=
  r.headers.findSome? fun h => match h with | .toH c => some c | _ => none

/-- Go `req.CallID()`: first Call-ID header value, nil when absent. -/
def Request.callIDv (r : Request) : Option String :=
  r.headers.findSome? fun h => match h with | .callID v => some v | _ => none

/-- Go `req.GetHeaders(name)`, keeping only each matching header's `Value()`. -/
def Request.getHeaderValues (r : Request) (n : String) : List String :=
  r.headers.filterMap fun h => if h.name = n then some h.value else none

/-- Go `req.Route()`: first Route header's value, nil when absent. -/
def Request.route (r : Request) : Option String :=
  r.headers.findSome? fun h =>
    match h with | .generic n v => if n = "Route" then some v else none | _ => none

/-- A SIP response as the analysed file consumes it. -/
structure Response where
  statusCode : Nat
  headers : List SipHeader := []
deriving DecidableEq, Repr

/-- Go `res.AppendHeader(h)`. -/
def Response.appendHeader (r : Response) (h : SipHeader) : Response :=
  { r with headers := r.headers ++ [h] }

def Response.fromHdr (r : Response) : Option NameAddr :=
  r.headers.findSome? fun h => match h with | .fromH c => some c | _ => none

def Response.toHdr (r : Response) : Option NameAddr :=
  r.headers.findSome? fun h => match h with | .toH c => some c | _ => none

def Response.callIDv (r : Response) : Option String :=
  r.headers.findSome? fun h => match h with | .callID v => some v | _ => none

/-- Modelled from the spec: the message model classifies a response as
successful by its status code (a 2xx "final and successful" response);
`sip.Response.IsSuccess` is outside the analysed file. -/
def Response.isSuccess (r : Response) : Bool :=
  200 ≤ r.statusCode && r.statusCode < 300

/-- Modelled from the spec: a provisional (non-final progress) response has
a status code below 200; `sip.Response.IsProvisional` is outside the
analysed file. -/
def Response.isProvisional (r : Response) : Bool :=
  r.statusCode < 200

/-- Modelled from the spec: dialog identity is "derived deterministically
from three protocol fields (call identifier, local tag, remote tag)";
`sip.MakeDialogID` is outside the analysed file. -/
def MakeDialogID (callID localTag remoteTag : String) : String :=
  callID ++ "__" ++ localTag ++ "__" ++ remoteTag

/-- Failure of dialog-identity computation: the correlation fields are
insufficient (a header or its tag parameter missing). -/
inductive IdErr where
  | missingHeader
  | missingTag
deriving DecidableEq, Repr

/-- Modelled from the spec: identity computation from a response needs the
call identifier and both parties' tags; it "does not exist until" these
correlation fields are present. For the UAS the local tag is the To tag.
`sip.MakeDialogIDFromResponse` is outside the analysed file. -/
def MakeDialogIDFromResponse (res : Response) : Except IdErr String :=
  match res.callIDv, res.fromHdr, res.toHdr with
  | some cid, some f, some t =>
    match t.param? "tag", f.param? "tag" with
    | some toTag, some fromTag => .ok (MakeDialogID cid toTag fromTag)
    | _, _ => .error .missingTag
  | _, _, _ => .error .missingHeader

/-- Modelled from the spec: identity computation from an in-dialog request
(ACK/BYE) uses the same correlation triple, so that it matches the identity
registered from the response; fails when the fields are insufficient.
`sip.MakeDialogIDFromRequest` is outside the analysed file. -/
def MakeDialogIDFromRequest (req : Request) : Except IdErr String :=
  match req.callIDv, req.fromHdr, req.toHdr with
  | some cid, some f, some t =>
    match t.param? "tag", f.param? "tag" with
    | some toTag, some fromTag => .ok (MakeDialogID cid toTag fromTag)
    | _, _ => .error .missingTag
  | _, _, _ => .error .missingHeader

/-- Errors surfaced by the analysed file. Sentinel errors of the package
become constructors; `errors.Join(ErrDialogOutsideDialog, err)` becomes
`outsideDialog err` (for which `errors.Is(·, ErrDialogOutsideDialog)`
holds), while returning the identity error unwrapped becomes
`idCompute err` (for which it does not hold). -/
inductive SipErr where
  | inviteNoContact
  | canceled
  | doesNotExist
  | outsideDialog (e : IdErr)
  | idCompute (e : IdErr)
  | invalidState
  | nonMatchingID (own bye : String)
  | unexpectedResponse (r : Response)
  | respondFailed (m : String)
  | txTerminal (m : String)
  | ctxErr
deriving DecidableEq, Repr

/-- Go `errors.Is(err, ErrDialogOutsideDialog)`. -/
def SipErr.isOutsideDialog : SipErr → Bool
  | .outsideDialog _ => true
  | _ => false

/-- Result of one operation: normal return value (`ok`/`err e`), or a Go
runtime crash (nil-pointer dereference). -/
inductive Outcome where
  | ok
  | err (e : SipErr)
  | crash (m : String)
deriving DecidableEq, Repr

/-- Externally visible events of one operation, in chronological order. -/
inductive Event where
  | registered (id : String)
  | sent (r : Response)
  | deregistered (id : String)
  | txResponded (status : Nat)
  | byeSent (r : Request)
deriving DecidableEq, Repr

/-- Modelled from the spec: the lifecycle state
`Init → Established → Confirmed → Ended` is "a single atomically
read/written integer" with a total order; `sip.DialogState` is outside the
analysed file. -/
inductive DialogState where
  | init
  | established
  | confirmed
  | ended
deriving DecidableEq, Repr

def DialogState.toNat : DialogState → Nat
  | .init => 0
  | .established => 1
  | .confirmed => 2
  | .ended => 3

/-- One dialog record together with its session handle's mutable fields:
identity (empty string until set), the captured INVITE, the stored
response (nil until the first `WriteResponse`), lifecycle state, and the
cancellation flag of the per-dialog lifetime context created in
`ReadInvite`. -/
structure Session where
  ID : String
  inviteRequest : Request
  inviteResponse : Option Response
  state : DialogState
  cancelled : Bool
deriving DecidableEq, Repr

/-- Modelled from the spec: `setState` performs an unconditional write of
the state integer (`Dialog.setState` is outside the analysed file; the
buffered notification channel it also feeds is not observed by any claim). -/
def Session.setState (s : Session) (st : DialogState) : Session :=
  { s with state := st }

/-- The world a single session handle lives in: the `DialogServer`'s
configured contact header, its `dialogs` map restricted to this handle
(the list of identities under which the handle is stored), the handle
itself, and whether the INVITE server transaction has been terminated or
completed. -/
structure World where
  contactHDR : NameAddr
  sess : Session
  registry : List String
  txTerminated : Bool
deriving DecidableEq, Repr

/-- Go `sync.Map.Store(id, s)` for the single tracked handle. -/
def storeReg (id : String) (reg : List String) : List String :=
  if id ∈ reg then reg else reg ++ [id]

/-- Go `sync.Map.Delete(id)`. -/
def deleteReg (id : String) (reg : List String) : List String :=
  reg.filter fun x => x ≠ id

/-- Go `loadDialog(id)` succeeds iff the handle is stored under `id`. -/
def loadDialogFound (w : World) (id : String) : Bool :=
  id ∈ w.registry

/-- Embeds `ReadInvite`: requires a Contact header on the INVITE, then builds a
fresh handle (state zero, identity unset, fresh un-cancelled lifetime
context) that is not yet registered. -/
def ReadInvite (contactHDR : NameAddr) (req : Request) : Except SipErr World :=
  match req.contactHdr with
  | none => .error .inviteNoContact
  | some _ => .ok
      { contactHDR := contactHDR
        sess :=
          { ID := ""
            inviteRequest := req
            inviteResponse := none
            state := .init
            cancelled := false }
        registry := []
        txTerminated := false }

/-- Embeds `ReadAck`: compute the identity (failure is wrapped with
`ErrDialogOutsideDialog` via `errors.Join`), look the dialog up
(`ErrDialogDoesNotExists` when absent), and set state `Confirmed`. -/
def ReadAck (w : World) (req : Request) : Outcome × World × List Event :=
  match MakeDialogIDFromRequest req with
  | .error e => (.err (.outsideDialog e), w, [])
  | .ok id =>
    if loadDialogFound w id then
      (.ok, { w with sess := w.sess.setState .confirmed }, [])
    else
      (.err .doesNotExist, w, [])

/-- The deferred pair `Close()` + `inviteTx.Terminate()` that both
`ReadBye` and `Bye` schedule before doing work: deregister the handle
under its identity and terminate the INVITE server transaction. It runs on
every exit of the guarded region, Go panics included. -/
def deferredCleanup (w : World) : World :=
  { w with registry := deleteReg w.sess.ID w.registry, txTerminated := true }

/-- Embeds `ReadBye`: compute the identity (the raw error is returned, without the
`ErrDialogOutsideDialog` wrapping `ReadAck` applies), look the dialog up,
then — with `dt.Close()` and `dt.inviteTx.Terminate()` deferred — respond
200 OK on the BYE transaction and set state `Ended`. `respondOk` is the
transport outcome of that send; on failure the error is returned but the
deferred close and terminate still run. -/
def ReadBye (w : World) (req : Request) (respondOk : Except String Unit) :
    Outcome × World × List Event :=
  match MakeDialogIDFromRequest req with
  | .error e => (.err (.idCompute e), w, [])
  | .ok id =>
    if loadDialogFound w id then
      match respondOk with
      | .error m => (.err (.respondFailed m), deferredCleanup w, [.txResponded 200])
      | .ok _ =>
          (.ok, deferredCleanup { w with sess := w.sess.setState .ended },
           [.txResponded 200])
    else
      (.err .doesNotExist, w, [])

/-- Embeds `Close`: delete the handle from the registry under its identity and
return nil. (The per-dialog lifetime context is not touched.) -/
def Close (w : World) : Outcome × World × List Event :=
  (.ok, { w with registry := deleteReg w.sess.ID w.registry }, [])

/-- Environment of one `WriteResponse` call: whether a CANCEL is pending on
`tx.Cancels()`, whether `tx.Done()` fires now (beyond a previously
terminated transaction) and with which `tx.Err()`, and the transport
outcome of `tx.Respond(res)`. -/
structure WriteEnv where
  cancelPending : Option Request
  doneNow : Bool
  doneErrMsg : String
  respondRes : Except String Unit
deriving Repr

/-- Embeds `WriteResponse`, in source order: append the server's contact header
and store the response on the record; non-blocking race check (pending
CANCEL → answer it 200 and fail `ErrDialogCanceled`; transaction done →
return `tx.Err()`); provisional → just send; final non-success → send then
state `Ended`; final success → compute identity, set it, register the
handle, state `Established`, send, and on send failure delete the registry
entry again before returning the error. -/
def WriteResponse (w : World) (res : Response) (env : WriteEnv) :
    Outcome × World × List Event :=
  let res := res.appendHeader (.contact w.contactHDR)
  let w := { w with sess := { w.sess with inviteResponse := some res } }
  match env.cancelPending with
  | some _ => (.err .canceled, w, [.txResponded 200])
  | none =>
    if w.txTerminated || env.doneNow then
      (.err (.txTerminal env.doneErrMsg), w, [])
    else
      if !res.isSuccess then
        if res.isProvisional then
          match env.respondRes with
          | .error m => (.err (.respondFailed m), w, [.sent res])
          | .ok _ => (.ok, w, [.sent res])
        else
          match env.respondRes with
          | .error m => (.err (.respondFailed m), w, [.sent res])
          | .ok _ => (.ok, { w with sess := w.sess.setState .ended }, [.sent res])
      else
        match MakeDialogIDFromResponse res with
        | .error e => (.err (.idCompute e), w, [])
        | .ok id =>
          let w := { w with sess := { w.sess with ID := id } }
          let w := { w with registry := storeReg id w.registry }
          let w := { w with sess := w.sess.setState .established }
          match env.respondRes with
          | .ok _ => (.ok, w, [.registered id, .sent res])
          | .error m =>
              (.err (.respondFailed m),
               { w with registry := deleteReg id w.registry },
               [.registered id, .sent res, .deregistered id])

/-- Embeds `newByeRequestUAS`: new BYE targeted at the INVITE's contact address,
From/To swapped relative to the stored response (display name, address and
parameters — hence the tag — copied), Call-ID copied, then one Route
header per `Record-Route` header of the INVITE in reverse order of
appearance. `none` stands for the nil-pointer dereference the Go code
performs when the contact or one of the response's correlation headers is
absent. -/
def newByeRequestUAS (req : Request) (res : Response) : Option Request :=
  match req.contactHdr, res.fromHdr, res.toHdr, res.callIDv with
  | some cont, some f, some t, some cid =>
    let bye : Request := { method := "BYE", recipient := cont.address }
    let bye := bye.appendHeader (.fromH ⟨t.displayName, t.address, t.params⟩)
    let bye := bye.appendHeader (.toH ⟨f.displayName, f.address, f.params⟩)
    let bye := bye.appendHeader (.callID cid)
    let bye := (req.getHeaderValues "Record-Route").reverse.foldl
      (fun b v => b.appendHeader (.generic "Route" v)) bye
    some bye
  | _, _, _, _ => none

/-- The identity recheck of `Bye` (source lines 260–263): read the BYE's
Call-ID, From and To and rebuild the identity with Go-map semantics for a
missing `tag` (empty string); `none` stands for the nil dereference when a
header is absent. -/
def byeCheckID (bye : Request) : Option String :=
  match bye.callIDv, bye.fromHdr, bye.toHdr with
  | some cid, some f, some t =>
      some (MakeDialogID cid (f.paramD "tag") (t.paramD "tag"))
  | _, _, _ => none

/-- One resolution of the confirmation-wait `select` after any number of
`T1` timer laps: either `s.inviteTx.Done()` fires or `ctx.Done()` fires.
Each timer lap carries the state observed at the following recheck
(concurrently updated by ACK routing). -/
inductive WaitResolver where
  | txDone
  | ctxDone
deriving DecidableEq, Repr

inductive WaitOutcome where
  | proceed
  | ctxCancelled
deriving DecidableEq, Repr

/-- The wait loop of `Bye` (source lines 240–255): while the loaded state
is below `Confirmed`, block on the select; a timer lap re-checks the
(possibly concurrently updated) state, `inviteTx.Done()` breaks out of the
loop, `ctx.Done()` returns the context error. Returns the outcome and the
state as of the loop's exit. -/
def byeWait (st : DialogState) (timers : List DialogState)
    (resolver : WaitResolver) : WaitOutcome × DialogState :=
  if st.toNat < DialogState.confirmed.toNat then
    match timers with
    | next :: rest => byeWait next rest resolver
    | [] =>
      match resolver with
      | .txDone => (.proceed, st)
      | .ctxDone => (.ctxCancelled, st)
  else
    (.proceed, st)

/-- What `Bye` observes after sending the BYE (source lines 282–293):
exactly one of a response on `tx.Responses()`, `tx.Done()` with its
terminal error, or `ctx.Done()`. -/
inductive AwaitEv where
  | response (r : Response)
  | txDone (m : String)
  | ctxDone
deriving DecidableEq, Repr

/-- The await select of `Bye`: a response with status exactly 200 sets
state `Ended` and returns nil; any other status returns
`ErrDialogResponse` carrying the response; `tx.Done()` returns `tx.Err()`;
`ctx.Done()` returns the context error. -/
def byeAwait (s : Session) : AwaitEv → Outcome × Session
  | .response r =>
      if r.statusCode ≠ 200 then (.err (.unexpectedResponse r), s)
      else (.ok, s.setState .ended)
  | .txDone m => (.err (.txTerminal m), s)
  | .ctxDone => (.err .ctxErr, s)

/-- Environment of one `Bye` call. -/
structure ByeEnv where
  timers : List DialogState
  resolver : WaitResolver
  txReqRes : Except SipErr Unit
  await : AwaitEv
deriving Repr

/-- Embeds `Bye`, in source order: return nil when already `Ended`; dereference
the stored response (a Go panic when none was ever stored) and require it
successful; from here `Close` and `inviteTx.Terminate()` are deferred and
run on every exit, panics included; run the confirmation wait; build the
BYE, recheck its identity against the handle's; set the destination from a
Route header when present; send the BYE as a client transaction; await its
outcome. -/
def Bye (w : World) (env : ByeEnv) : Outcome × World × List Event :=
  if w.sess.state = .ended then (.ok, w, [])
  else
    match w.sess.inviteResponse with
    | none => (.crash "nil InviteResponse dereference", w, [])
    | some res =>
      if !res.isSuccess then (.err .invalidState, w, [])
      else
        match byeWait w.sess.state env.timers env.resolver with
        | (.ctxCancelled, st) =>
            (.err .ctxErr,
             deferredCleanup { w with sess := { w.sess with state := st } }, [])
        | (.proceed, st) =>
          let w := { w with sess := { w.sess with state := st } }
          match newByeRequestUAS w.sess.inviteRequest res with
          | none =>
              (.crash "nil header dereference in newByeRequestUAS", deferredCleanup w, [])
          | some bye =>
            match byeCheckID bye with
            | none =>
                (.crash "nil header dereference reading BYE headers",
                 deferredCleanup w, [])
            | some byeID =>
              if w.sess.ID ≠ byeID then
                (.err (.nonMatchingID w.sess.ID byeID), deferredCleanup w, [])
              else
                let bye := match bye.route with
                  | some v => { bye with destination := some v }
                  | none => bye
                match env.txReqRes with
                | .error e => (.err e, deferredCleanup w, [])
                | .ok _ =>
                  let p := byeAwait w.sess env.await
                  (p.1, deferredCleanup { w with sess := p.2 }, [.byeSent bye])

/-! ## Trace interpreter

One operation of the public surface of a single session handle, and the
sequential interpreter that runs a list of operations. Each operation is
atomic at the granularity of one Go call; the per-call environments carry
the transaction layer's nondeterminism. -/

/-- One operation on a session handle / its registry. -/
inductive Op where
  | writeRes (res : Response) (env : WriteEnv)
  | ack (req : Request)
  | byeIn (req : Request) (respondOk : Except String Unit)
  | byeOut (env : ByeEnv)
  | close

/-- Dispatch one operation. -/
def step (w : World) : Op → Outcome × World × List Event
  | .writeRes res env => WriteResponse w res env
  | .ack req => ReadAck w req
  | .byeIn req r => ReadBye w req r
  | .byeOut env => Bye w env
  | .close => Close w

/-- Run a list of operations, threading the world. -/
def run (w : World) : List Op → World
  | [] => w
  | op :: rest => run (step w op).2.1 rest

/-- An operation that passes a final (status ≥ 200) response to
`WriteResponse`. -/
def opFinal : Op → Bool
  | .writeRes res _ => 200 ≤ res.statusCode
  | _ => false

/-- Inductive invariant of single-handle traces; `fw` records whether a
final (status ≥ 200) response has already been passed to `WriteResponse`.
It carries the registry/state relationship of the claim plus the context
needed to preserve it: the captured INVITE has a contact header, the
handle is only ever registered under its own identity, registration
implies `Established` or `Confirmed`, and before any final response the
handle is unregistered, in the zero state, and holds at most a non-success
stored response. -/
def Inv (w : World) (fw : Bool) : Prop :=
  w.sess.inviteRequest.contactHdr.isSome = true ∧
  (w.registry = [] ∨ w.registry = [w.sess.ID]) ∧
  (w.registry ≠ [] → w.sess.state = .established ∨ w.sess.state = .confirmed) ∧
  (fw = false →
    w.registry = [] ∧ w.sess.state = .init ∧
    ∀ r, w.sess.inviteResponse = some r → r.isSuccess = false)

/-! ## Concrete fixtures -/

def contactSrv : NameAddr := ⟨"", "sip:uas@192.0.2.1", []⟩

def contactA : NameAddr := ⟨"", "sip:alice@192.0.2.9", []⟩

def fromA : NameAddr := ⟨"Alice", "sip:alice@a.example", [("tag", "ta")]⟩

def toB : NameAddr := ⟨"Bob", "sip:bob@b.example", [("tag", "tb")]⟩

/-- A well-formed INVITE: contact present, three Record-Route entries in
received order R1, R2, R3. -/
def inviteReq : Request :=
  { method := "INVITE", recipient := "sip:bob@b.example",
    headers := [.fromH fromA, .toH ⟨"Bob", "sip:bob@b.example", []⟩, .callID "cid1",
                .contact contactA,
                .generic "Record-Route" "R1", .generic "Record-Route" "R2",
                .generic "Record-Route" "R3"] }

/-- A 200 OK answer carrying the full correlation triple. -/
def res200 : Response := ⟨200, [.fromH fromA, .toH toB, .callID "cid1"]⟩

def res486 : Response := ⟨486, []⟩

def res180 : Response := ⟨180, []⟩

/-- Status 202 Accepted: a success-class final response that is not 200. -/
def res202 : Response := ⟨202, []⟩

/-- Quiet transaction environment: no CANCEL, not done, send succeeds. -/
def envOk : WriteEnv := ⟨none, false, "", .ok ()⟩

/-- A CANCEL is pending on the INVITE transaction. -/
def envCancel : WriteEnv := ⟨some ⟨"CANCEL", "sip:bob@b.example", none, []⟩, false, "", .ok ()⟩

/-- Send on the INVITE transaction fails. -/
def envSendFail : WriteEnv := ⟨none, false, "", .error "io timeout"⟩

/-- A matching ACK for the dialog of `res200`. -/
def ackReq : Request :=
  { method := "ACK", recipient := "sip:alice@192.0.2.9",
    headers := [.fromH fromA, .toH toB, .callID "cid1"] }

/-- A request whose From header has no tag: its dialog identity cannot be
computed. -/
def reqNoTag : Request :=
  { method := "BYE", recipient := "sip:uas@192.0.2.1",
    headers := [.fromH ⟨"", "sip:a", []⟩, .toH toB, .callID "cid1"] }

/-- The fresh handle produced by `ReadInvite contactSrv inviteReq`. -/
def w0 : World :=
  { contactHDR := contactSrv
    sess :=
      { ID := ""
        inviteRequest := inviteReq
        inviteResponse := none
        state := .init
        cancelled := false }
    registry := []
    txTerminated := false }

/-- World after a successfully sent 200: `Established` and registered. -/
def wEstab : World := run w0 [.writeRes res200 envOk]

/-- World after 200 then matching ACK: `Confirmed` and registered. -/
def wConf : World := run w0 [.writeRes res200 envOk, .ack ackReq]

/-- World after only a provisional 180 was written. -/
def w180 : World := run w0 [.writeRes res180 envOk]

/-- Bye environment: the deadline context fires during the wait. -/
def envByeCtx : ByeEnv := ⟨[], .ctxDone, .ok (), .ctxDone⟩

/-- Bye environment: wait resolves, BYE answered with 200. -/
def envBye200 : ByeEnv := ⟨[], .txDone, .ok (), .response ⟨200, []⟩⟩

/-- Bye environment: wait resolves, BYE answered with 202 Accepted. -/
def envBye202 : ByeEnv := ⟨[], .txDone, .ok (), .response res202⟩

/-! ## Helper lemmas -/

theorem readInvite_w0 : ReadInvite contactSrv inviteReq = .ok w0 := rfl

@[simp]
theorem appendHeader_statusCode (r : Response) (h : SipHeader) :
    (r.appendHeader h).statusCode = r.statusCode := rfl

@[simp]
theorem appendHeader_isSuccess (r : Response) (h : SipHeader) :
    (r.appendHeader h).isSuccess = r.isSuccess := rfl

@[simp]
theorem appendHeader_isProvisional (r : Response) (h : SipHeader) :
    (r.appendHeader h).isProvisional = r.isProvisional := rfl

theorem mem_storeReg_self (id : String) (reg : List String) : id ∈ storeReg id reg := by
  unfold storeReg
  split
  · assumption
  · simp

theorem not_mem_deleteReg_self (id : String) (reg : List String) :
    id ∉ deleteReg id reg := by
  intro h
  have := List.mem_filter.mp h
  simp at this

@[simp]
theorem deleteReg_nil (id : String) : deleteReg id [] = [] := rfl

@[simp]
theorem deleteReg_singleton_self (id : String) : deleteReg id [id] = [] := by
  simp [deleteReg]

theorem deleteReg_idem (id : String) (reg : List String) :
    deleteReg id (deleteReg id reg) = deleteReg id reg := by
  simp [deleteReg, List.filter_filter]

@[simp]
theorem setState_ID (s : Session) (st : DialogState) : (s.setState st).ID = s.ID := rfl

@[simp]
theorem setState_inviteRequest (s : Session) (st : DialogState) :
    (s.setState st).inviteRequest = s.inviteRequest := rfl

@[simp]
theorem setState_inviteResponse (s : Session) (st : DialogState) :
    (s.setState st).inviteResponse = s.inviteResponse := rfl

@[simp]
theorem setState_state (s : Session) (st : DialogState) : (s.setState st).state = st := rfl

@[simp]
theorem setState_cancelled (s : Session) (st : DialogState) :
    (s.setState st).cancelled = s.cancelled := rfl

/-! ## Claim C1 -/

/-- Claim C1: for a final successful response written on a handle (no CANCEL
pending, INVITE transaction alive, identity computable), the handle is
stored in the registry under the identity computed from the response
strictly before the response is sent on the transaction (the `registered`
event precedes the `sent` event), so a lookup after a successful send
finds it; and if the send fails, the handle is removed from the registry
again (lookup fails) before the error is returned. -/
theorem c1_register_before_send (w : World) (res : Response) (env : WriteEnv) (id : String)
    (hsucc : res.isSuccess = true)
    (hnc : env.cancelPending = none)
    (hnt : w.txTerminated = false)
    (hnd : env.doneNow = false)
    (hid : MakeDialogIDFromResponse (res.appendHeader (.contact w.contactHDR)) = .ok id) :
    (env.respondRes = .ok () →
      (WriteResponse w res env).1 = .ok ∧
      (WriteResponse w res env).2.2
        = [.registered id, .sent (res.appendHeader (.contact w.contactHDR))] ∧
      loadDialogFound (WriteResponse w res env).2.1 id = true) ∧
    (∀ m, env.respondRes = .error m →
      (WriteResponse w res env).1 = .err (.respondFailed m) ∧
      (WriteResponse w res env).2.2
        = [.registered id, .sent (res.appendHeader (.contact w.contactHDR)),
           .deregistered id] ∧
      loadDialogFound (WriteResponse w res env).2.1 id = false) := by
  unfold WriteResponse
  simp only [hnc, hnt, hnd, appendHeader_isSuccess, hsucc, Bool.false_or, Bool.not_true,
    Bool.false_eq_true, if_false, hid]
  constructor
  · intro hr
    simp only [hr, loadDialogFound]
    refine ⟨trivial, trivial, ?_⟩
    simpa using mem_storeReg_self id w.registry
  · intro m hr
    simp only [hr, loadDialogFound]
    refine ⟨trivial, trivial, ?_⟩
    simpa using not_mem_deleteReg_self id (storeReg id w.registry)

/-- Witness for C1 at the concrete fixtures: both the successful-send and
the failing-send cases, instantiated on the fresh handle and the concrete
200 OK. -/
theorem c1_register_before_send_witness :
    ((WriteResponse w0 res200 envOk).1 = .ok ∧
      (WriteResponse w0 res200 envOk).2.2
        = [.registered "cid1__tb__ta",
           .sent (res200.appendHeader (.contact w0.contactHDR))] ∧
      loadDialogFound (WriteResponse w0 res200 envOk).2.1 "cid1__tb__ta" = true) ∧
    ((WriteResponse w0 res200 envSendFail).1 = .err (.respondFailed "io timeout") ∧
      (WriteResponse w0 res200 envSendFail).2.2
        = [.registered "cid1__tb__ta",
           .sent (res200.appendHeader (.contact w0.contactHDR)),
           .deregistered "cid1__tb__ta"] ∧
      loadDialogFound (WriteResponse w0 res200 envSendFail).2.1 "cid1__tb__ta" = false) :=
  ⟨(c1_register_before_send w0 res200 envOk "cid1__tb__ta" rfl rfl rfl rfl rfl).1 rfl,
   (c1_register_before_send w0 res200 envSendFail "cid1__tb__ta" rfl rfl rfl rfl rfl).2
     "io timeout" rfl⟩

/-! ## Claim C5 -/

/-- Claim C5: when a CANCEL is pending during `WriteResponse` of a
final-success response, the call answers the CANCEL with 200, returns
`ErrDialogCanceled`, and neither the registry, the lifecycle state, nor
the stored identity change — a canceled setup is never registered and the
state does not become `Established`. -/
theorem c5_cancel_never_registers (w : World) (res : Response) (env : WriteEnv) (creq : Request)
    (hsucc : res.isSuccess = true)
    (hc : env.cancelPending = some creq) :
    (WriteResponse w res env).1 = .err .canceled ∧
    (WriteResponse w res env).2.2 = [.txResponded 200] ∧
    (WriteResponse w res env).2.1.registry = w.registry ∧
    (WriteResponse w res env).2.1.sess.state = w.sess.state ∧
    (WriteResponse w res env).2.1.sess.ID = w.sess.ID := by
  unfold WriteResponse
  simp [hc]

/-- Witness for C5: the pending CANCEL on a fresh handle with the concrete
200 OK. -/
theorem c5_cancel_never_registers_witness :
    (WriteResponse w0 res200 envCancel).1 = .err .canceled ∧
    (WriteResponse w0 res200 envCancel).2.2 = [.txResponded 200] ∧
    (WriteResponse w0 res200 envCancel).2.1.registry = w0.registry ∧
    (WriteResponse w0 res200 envCancel).2.1.sess.state = w0.sess.state ∧
    (WriteResponse w0 res200 envCancel).2.1.sess.ID = w0.sess.ID :=
  c5_cancel_never_registers w0 res200 envCancel
    ⟨"CANCEL", "sip:bob@b.example", none, []⟩ rfl rfl

/-! ## Claim C10 -/

/-- Claim C10: every `WriteResponse` call appends the registry's contact
header to the response and stores the result as the record's setup
response before the cancellation/transaction-done race check, so even
calls that take the `Canceled` or transaction-error exits (sending
nothing) have already overwritten the stored setup response. The statement
is unconditional in the environment, so it covers those exits. -/
theorem c10_response_stored_before_race_check (w : World) (res : Response) (env : WriteEnv) :
    (WriteResponse w res env).2.1.sess.inviteResponse
      = some (res.appendHeader (.contact w.contactHDR)) ∧
    (res.appendHeader (.contact w.contactHDR)).headers
      = res.headers ++ [.contact w.contactHDR] := by
  refine ⟨?_, rfl⟩
  unfold WriteResponse
  cases env.cancelPending <;>
    simp [Session.setState] <;>
    (repeat' split) <;>
    simp [Session.setState]

/-! ## Claim C2 -/

@[simp]
theorem appendHeader_req_method (r : Request) (h : SipHeader) :
    (r.appendHeader h).method = r.method := rfl

@[simp]
theorem appendHeader_req_recipient (r : Request) (h : SipHeader) :
    (r.appendHeader h).recipient = r.recipient := rfl

@[simp]
theorem appendHeader_req_headers (r : Request) (h : SipHeader) :
    (r.appendHeader h).headers = r.headers ++ [h] := rfl

/-- The route-appending fold of the builder only accumulates headers. -/
theorem foldlRoute_headers (b : Request) (l : List String) :
    (l.foldl (fun b v => b.appendHeader (.generic "Route" v)) b).headers
      = b.headers ++ l.map (fun v => SipHeader.generic "Route" v) := by
  induction l generalizing b with
  | nil => simp
  | cons a tl ih =>
    rw [List.foldl_cons, ih]
    simp [Request.appendHeader]

theorem foldlRoute_recipient (b : Request) (l : List String) :
    (l.foldl (fun b v => b.appendHeader (.generic "Route" v)) b).recipient
      = b.recipient := by
  induction l generalizing b with
  | nil => rfl
  | cons a tl ih =>
    rw [List.foldl_cons, ih]
    rfl

/-- Route values built by the fold read back verbatim. -/
theorem getHV_map_route (l : List String) :
    List.filterMap
      (fun h => if SipHeader.name h = "Route" then some (SipHeader.value h) else none)
      (l.map (fun v => SipHeader.generic "Route" v)) = l := by
  induction l with
  | nil => rfl
  | cons a tl ih =>
    rw [List.map_cons, List.filterMap_cons_some _, ih]
    simp [SipHeader.name, SipHeader.value]

/-- Splitting `getHeaderValues "Route"` over base headers plus built
Route headers. -/
theorem getHV_routes (base : List SipHeader) (l : List String) :
    List.filterMap
      (fun h => if SipHeader.name h = "Route" then some (SipHeader.value h) else none)
      (base ++ l.map (fun v => SipHeader.generic "Route" v))
      = (List.filterMap
          (fun h => if SipHeader.name h = "Route" then some (SipHeader.value h) else none)
          base) ++ l := by
  rw [List.filterMap_append, getHV_map_route]

/-- Accessor values of the builder's output (shared helper). -/
theorem newBye_accessors (req : Request) (res : Response) (cont f t : NameAddr) (cid : String)
    (hc : req.contactHdr = some cont) (hf : res.fromHdr = some f)
    (ht : res.toHdr = some t) (hcid : res.callIDv = some cid) :
    ∃ bye, newByeRequestUAS req res = some bye ∧
      bye.recipient = cont.address ∧
      bye.fromHdr = some ⟨t.displayName, t.address, t.params⟩ ∧
      bye.toHdr = some ⟨f.displayName, f.address, f.params⟩ ∧
      bye.fromHdr.map (fun h => h.param? "tag") = some (t.param? "tag") ∧
      bye.toHdr.map (fun h => h.param? "tag") = some (f.param? "tag") ∧
      bye.callIDv = some cid ∧
      bye.getHeaderValues "Route" = (req.getHeaderValues "Record-Route").reverse := by
  unfold newByeRequestUAS
  rw [hc, hf, ht, hcid]
  refine ⟨_, rfl, ?_, ?_, ?_, ?_, ?_, ?_, ?_⟩
  · rw [foldlRoute_recipient]
    rfl
  · unfold Request.fromHdr
    rw [foldlRoute_headers]
    simp [Request.appendHeader, List.findSome?_cons, List.findSome?_append]
  · unfold Request.toHdr
    rw [foldlRoute_headers]
    simp [Request.appendHeader, List.findSome?_cons, List.findSome?_append]
  · unfold Request.fromHdr
    rw [foldlRoute_headers]
    simp [Request.appendHeader, List.findSome?_cons, List.findSome?_append]
  · unfold Request.toHdr
    rw [foldlRoute_headers]
    simp [Request.appendHeader, List.findSome?_cons, List.findSome?_append]
  · unfold Request.callIDv
    rw [foldlRoute_headers]
    simp [Request.appendHeader, List.findSome?_cons, List.findSome?_append]
  · unfold Request.getHeaderValues
    rw [foldlRoute_headers, getHV_routes]
    simp [Request.appendHeader, SipHeader.name]

/-- Claim C2: for a stored (setup request, setup final response) pair with
contact and correlation headers present, the BYE builder targets the setup
request's contact address, swaps From/To relative to the response
(parameters — hence the tag — copied verbatim), copies the Call-ID
unchanged, and emits the setup request's Record-Route values as Route
headers in reverse order of appearance. -/
theorem c2_bye_builder (req : Request) (res : Response) (cont f t : NameAddr) (cid : String)
    (hc : req.contactHdr = some cont) (hf : res.fromHdr = some f)
    (ht : res.toHdr = some t) (hcid : res.callIDv = some cid) :
    ∃ bye, newByeRequestUAS req res = some bye ∧
      bye.recipient = cont.address ∧
      bye.fromHdr = some ⟨t.displayName, t.address, t.params⟩ ∧
      bye.toHdr = some ⟨f.displayName, f.address, f.params⟩ ∧
      bye.fromHdr.map (fun h => h.param? "tag") = some (t.param? "tag") ∧
      bye.toHdr.map (fun h => h.param? "tag") = some (f.param? "tag") ∧
      bye.callIDv = some cid ∧
      bye.getHeaderValues "Route" = (req.getHeaderValues "Record-Route").reverse :=
  newBye_accessors req res cont f t cid hc hf ht hcid

/-- Witness for C2: the INVITE fixture carries Record-Route entries
R1, R2, R3 in that order; the built BYE carries Route values R3, R2, R1,
targets the INVITE's contact, swaps From/To of the 200 OK and copies its
Call-ID. -/
theorem c2_bye_builder_witness :
    ∃ bye, newByeRequestUAS inviteReq res200 = some bye ∧
      bye.recipient = "sip:alice@192.0.2.9" ∧
      bye.fromHdr = some ⟨"Bob", "sip:bob@b.example", [("tag", "tb")]⟩ ∧
      bye.toHdr = some ⟨"Alice", "sip:alice@a.example", [("tag", "ta")]⟩ ∧
      bye.callIDv = some "cid1" ∧
      bye.getHeaderValues "Route" = ["R3", "R2", "R1"] := by
  obtain ⟨bye, h1, h2, h3, h4, _, _, h7, h8⟩ :=
    c2_bye_builder inviteReq res200 contactA fromA toB "cid1" rfl rfl rfl rfl
  exact ⟨bye, h1, h2, h3, h4, h7, by simpa using h8⟩

/-! ## Claim C3 -/

/-- The wait loop exits towards the send only when the state it last
observed is at least `Confirmed` or the setup transaction concluded. -/
theorem byeWait_proceed :
    ∀ (timers : List DialogState) (st : DialogState) (rv : WaitResolver),
    (byeWait st timers rv).1 = .proceed →
    DialogState.confirmed.toNat ≤ (byeWait st timers rv).2.toNat ∨ rv = .txDone := by
  intro timers
  induction timers with
  | nil =>
    intro st rv h
    unfold byeWait at h ⊢
    by_cases hc : st.toNat < DialogState.confirmed.toNat
    · rw [if_pos hc] at h ⊢
      cases rv
      · exact Or.inr rfl
      · exact absurd h (by simp)
    · rw [if_neg hc] at h ⊢
      exact Or.inl (Nat.le_of_not_lt hc)
  | cons nx tl ih =>
    intro st rv h
    unfold byeWait at h ⊢
    by_cases hc : st.toNat < DialogState.confirmed.toNat
    · rw [if_pos hc] at h ⊢
      exact ih nx rv h
    · rw [if_neg hc] at h ⊢
      exact Or.inl (Nat.le_of_not_lt hc)

/-- Claim C3: on a handle below `Ended` holding a successful response, `Bye`
never sends the BYE strictly before the wait loop releases — a `byeSent`
event implies the state observed at the loop's exit had reached
`Confirmed` or the setup transaction had concluded — and if the deadline
context fires during the wait, `Bye` returns the context error with no
BYE sent (no events at all). -/
theorem c3_bye_waits_for_confirmation (w : World) (env : ByeEnv) (res : Response)
    (hne : w.sess.state ≠ .ended)
    (hres : w.sess.inviteResponse = some res)
    (hsucc : res.isSuccess = true) :
    ((byeWait w.sess.state env.timers env.resolver).1 = .ctxCancelled →
      (Bye w env).1 = .err .ctxErr ∧ (Bye w env).2.2 = []) ∧
    (∀ r, Event.byeSent r ∈ (Bye w env).2.2 →
      DialogState.confirmed.toNat
          ≤ (byeWait w.sess.state env.timers env.resolver).2.toNat ∨
        env.resolver = .txDone) := by
  unfold Bye
  rw [if_neg hne, hres]
  simp only [hsucc, Bool.not_true, Bool.false_eq_true, if_false]
  rcases hbw : byeWait w.sess.state env.timers env.resolver with ⟨o, st⟩
  cases o with
  | ctxCancelled =>
    refine ⟨fun _ => ⟨rfl, rfl⟩, ?_⟩
    intro r hr
    exact absurd hr (List.not_mem_nil _)
  | proceed =>
    constructor
    · intro hcontra
      exact WaitOutcome.noConfusion hcontra
    · intro r _
      have h1 : (byeWait w.sess.state env.timers env.resolver).1 = .proceed := by
        rw [hbw]
      have h2 := byeWait_proceed env.timers w.sess.state env.resolver h1
      rwa [hbw] at h2

/-- Witness for C3: an `Established` (unconfirmed) handle whose deadline
context fires during the wait: `Bye` returns the context error and emits
no event. -/
theorem c3_bye_waits_for_confirmation_witness :
    (Bye wEstab envByeCtx).1 = .err .ctxErr ∧ (Bye wEstab envByeCtx).2.2 = [] :=
  (c3_bye_waits_for_confirmation wEstab envByeCtx
      (res200.appendHeader (.contact contactSrv)) (by decide) rfl rfl).1 rfl

/-! ## Claim C7 -/

/-- Claim C7 (code bug): on a handle on which no response at all was ever
sent, `Bye` dereferences the nil stored response and crashes instead of
returning the `InvalidState` error the specification requires; with a
non-success response stored it does return `InvalidState`, in both cases
without sending a termination request. -/
theorem c7_bye_crashes_without_response :
    (Bye w0 envBye200).1 = .crash "nil InviteResponse dereference" ∧
    (Bye w0 envBye200).2.2 = [] ∧
    (Bye w180 envBye200).1 = .err .invalidState ∧
    (Bye w180 envBye200).2.2 = [] :=
  ⟨rfl, rfl, rfl, rfl⟩

/-! ## Claim C8 -/

/-- Claim C8 (counterexample): 202 Accepted is a success-class final
response, yet `Bye` on a confirmed dialog receiving it returns
`ErrDialogResponse` and does not transition to `Ended` — the code compares
against exactly 200, not against the success class. -/
theorem c8_counterexample_202 :
    Response.isSuccess res202 = true ∧
    (Bye wConf envBye202).1 = .err (.unexpectedResponse res202) ∧
    (Bye wConf envBye202).2.1.sess.state = .confirmed :=
  ⟨rfl, rfl, rfl⟩

/-! ## Claim C9 -/

/-- Claim C9 (counterexample): closing a registered, confirmed handle
returns success but leaves the per-dialog lifetime context un-cancelled —
`Close` never calls the cancellation function. -/
theorem c9_counterexample_no_cancel :
    (Close wConf).1 = .ok ∧ (Close wConf).2.1.sess.cancelled = false :=
  ⟨rfl, rfl⟩

/-- Claim C9 (amended): `Close` removes the handle from the registry under
its identity, returns success, is idempotent, and leaves the session
record — in particular the lifetime context's cancellation state —
untouched (the context is not cancelled at close). -/
theorem c9_close_idempotent_no_cancel (w : World) :
    (Close w).1 = .ok ∧
    (Close w).2.1.registry = deleteReg w.sess.ID w.registry ∧
    (Close w).2.1.sess = w.sess ∧
    (Close (Close w).2.1).2.1 = (Close w).2.1 := by
  refine ⟨rfl, rfl, rfl, ?_⟩
  simp [Close, deleteReg_idem]

/-! ## Claim C6 -/

/-- Claim C6 (counterexample): a BYE whose From header lacks its tag — its
dialog identity is not computable — makes `ReadBye` return the identity
error unwrapped, an error that is not `ErrDialogOutsideDialog`, while
`ReadAck` on the same request does wrap it; the claim's statement that
both fail with `OutsideDialog` is false for `ReadBye`. -/
theorem c6_counterexample_readBye_unwrapped :
    MakeDialogIDFromRequest reqNoTag = .error .missingTag ∧
    (ReadBye wEstab reqNoTag (.ok ())).1 = .err (.idCompute .missingTag) ∧
    SipErr.isOutsideDialog (.idCompute .missingTag) = false ∧
    (ReadAck wEstab reqNoTag).1 = .err (.outsideDialog .missingTag) ∧
    SipErr.isOutsideDialog (.outsideDialog .missingTag) = true :=
  ⟨rfl, rfl, rfl, rfl, rfl⟩

/-- Claim C6 (amended): when identity computation fails, `ReadAck` fails
with the identity error wrapped in `ErrDialogOutsideDialog` while
`ReadBye` returns the identity error unwrapped (not an `OutsideDialog`
error); when the identity is computable but no handle is registered under
it, both fail with `ErrDialogDoesNotExists`. -/
theorem c6_routing_errors (w : World) (req : Request) (r : Except String Unit) :
    (∀ e, MakeDialogIDFromRequest req = .error e →
      (ReadBye w req r).1 = .err (.idCompute e) ∧
      SipErr.isOutsideDialog (.idCompute e) = false ∧
      (ReadAck w req).1 = .err (.outsideDialog e) ∧
      SipErr.isOutsideDialog (.outsideDialog e) = true) ∧
    (∀ id, MakeDialogIDFromRequest req = .ok id → loadDialogFound w id = false →
      (ReadBye w req r).1 = .err .doesNotExist ∧
      (ReadAck w req).1 = .err .doesNotExist) := by
  constructor
  · intro e he
    unfold ReadBye ReadAck
    rw [he]
    exact ⟨rfl, rfl, rfl, rfl⟩
  · intro id hid hnf
    unfold ReadBye ReadAck
    rw [hid]
    simp [hnf]

/-- Witness for C6 (amended): the tagless BYE on a fresh world for the
identity-failure case, and a well-formed BYE on the fresh (empty-registry)
world for the not-found case. -/
theorem c6_routing_errors_witness :
    ((ReadBye w0 reqNoTag (.ok ())).1 = .err (.idCompute .missingTag) ∧
      SipErr.isOutsideDialog (.idCompute .missingTag) = false ∧
      (ReadAck w0 reqNoTag).1 = .err (.outsideDialog .missingTag) ∧
      SipErr.isOutsideDialog (.outsideDialog .missingTag) = true) ∧
    ((ReadBye w0 ackReq (.ok ())).1 = .err .doesNotExist ∧
      (ReadAck w0 ackReq).1 = .err .doesNotExist) :=
  ⟨(c6_routing_errors w0 reqNoTag (.ok ())).1 .missingTag rfl,
   (c6_routing_errors w0 ackReq (.ok ())).2 "cid1__tb__ta" rfl rfl⟩

/-! ## Claim C8, amended -/

/-- Once the observed state is `Confirmed`, the wait loop proceeds at
once. -/
theorem byeWait_confirmed (timers : List DialogState) (rv : WaitResolver) :
    byeWait .confirmed timers rv = (.proceed, .confirmed) := by
  unfold byeWait
  simp [DialogState.toNat]

/-- If identity computation from the stored response succeeds, the BYE
builder succeeds and the identity recheck of `Bye` reproduces exactly that
identity. -/
theorem byeCheckID_of_makeID (req : Request) (res : Response) (cont : NameAddr) (i : String)
    (hc : req.contactHdr = some cont)
    (hid : MakeDialogIDFromResponse res = .ok i) :
    ∃ bye, newByeRequestUAS req res = some bye ∧ byeCheckID bye = some i := by
  unfold MakeDialogIDFromResponse at hid
  rcases hv : res.callIDv with _ | cid <;>
    rcases hf : res.fromHdr with _ | f <;>
    rcases ht : res.toHdr with _ | t <;>
    simp [hv, hf, ht] at hid
  rcases htt : t.param? "tag" with _ | toTag <;>
    rcases hft : f.param? "tag" with _ | fromTag <;>
    simp [htt, hft] at hid
  obtain ⟨bye, hb, _, h3, h4, _, _, h5, _⟩ :=
    newBye_accessors req res cont f t cid hc hf ht hv
  refine ⟨bye, hb, ?_⟩
  unfold byeCheckID
  rw [h5, h3, h4]
  have h6 : (⟨t.displayName, t.address, t.params⟩ : NameAddr).paramD "tag" = toTag := by
    unfold NameAddr.paramD
    unfold NameAddr.param? at htt
    simp [htt]
  have h7 : (⟨f.displayName, f.address, f.params⟩ : NameAddr).paramD "tag" = fromTag := by
    unfold NameAddr.paramD
    unfold NameAddr.param? at hft
    simp [hft]
  simp [h6, h7, hid]

/-- Claim C8 (amended): awaiting the outbound BYE transaction on a confirmed
dialog: a final response with status code exactly 200 (not the success
class) transitions to `Ended` and returns success; any other status code —
success-class codes such as 202 included — returns `ErrDialogResponse`
carrying that response without transitioning to `Ended`; transaction
conclusion without a response returns the transaction's terminal error;
deadline cancellation returns the context's error. -/
theorem c8_bye_await (w : World) (env : ByeEnv) (res : Response) (cont : NameAddr)
    (hst : w.sess.state = .confirmed)
    (hres : w.sess.inviteResponse = some res)
    (hsucc : res.isSuccess = true)
    (hid : MakeDialogIDFromResponse res = .ok w.sess.ID)
    (hcont : w.sess.inviteRequest.contactHdr = some cont)
    (htx : env.txReqRes = .ok ()) :
    (∀ r, env.await = .response r → r.statusCode = 200 →
      (Bye w env).1 = .ok ∧ (Bye w env).2.1.sess.state = .ended) ∧
    (∀ r, env.await = .response r → r.statusCode ≠ 200 →
      (Bye w env).1 = .err (.unexpectedResponse r) ∧
      (Bye w env).2.1.sess.state = .confirmed) ∧
    (∀ m, env.await = .txDone m →
      (Bye w env).1 = .err (.txTerminal m) ∧
      (Bye w env).2.1.sess.state = .confirmed) ∧
    (env.await = .ctxDone →
      (Bye w env).1 = .err .ctxErr ∧
      (Bye w env).2.1.sess.state = .confirmed) := by
  obtain ⟨bye, hb, hchk⟩ :=
    byeCheckID_of_makeID w.sess.inviteRequest res cont w.sess.ID hcont hid
  refine ⟨?_, ?_, ?_, ?_⟩
  · intro r har h200
    unfold Bye
    simp [hres, hst, byeWait_confirmed, hsucc, hb, hchk, htx, har, byeAwait, h200,
      Session.setState, deferredCleanup]
  · intro r har h200
    unfold Bye
    simp [hres, hst, byeWait_confirmed, hsucc, hb, hchk, htx, har, byeAwait, h200,
      Session.setState, deferredCleanup]
  · intro m har
    unfold Bye
    simp [hres, hst, byeWait_confirmed, hsucc, hb, hchk, htx, har, byeAwait,
      Session.setState, deferredCleanup]
  · intro har
    unfold Bye
    simp [hres, hst, byeWait_confirmed, hsucc, hb, hchk, htx, har, byeAwait,
      Session.setState, deferredCleanup]

/-- Witness for C8 (amended): the confirmed fixture dialog receiving
exactly 200 on the BYE: success and `Ended`. -/
theorem c8_bye_await_witness :
    (Bye wConf envBye200).1 = .ok ∧ (Bye wConf envBye200).2.1.sess.state = .ended :=
  (c8_bye_await wConf envBye200 (res200.appendHeader (.contact contactSrv)) contactA
      rfl rfl rfl rfl rfl rfl).1 ⟨200, []⟩ rfl rfl

/-! ## Claim C4 -/

/-- Claim C4 (counterexample): a second final response resurrects and
re-registers an `Ended` handle, and a final failure after a success leaves
an `Ended` handle in the registry — both conjuncts of the claim fail on
double-final traces. -/
theorem c4_counterexample_ended_not_terminal :
    (run w0 [.writeRes res486 envOk]).sess.state = .ended ∧
    (run w0 [.writeRes res486 envOk, .writeRes res200 envOk]).sess.state = .established ∧
    (run w0 [.writeRes res200 envOk, .writeRes res486 envOk]).sess.state = .ended ∧
    (run w0 [.writeRes res200 envOk, .writeRes res486 envOk]).registry
      = ["cid1__tb__ta"] :=
  ⟨rfl, rfl, rfl, rfl⟩

@[simp]
theorem byeAwait_ID (s : Session) (ev : AwaitEv) : (byeAwait s ev).2.ID = s.ID := by
  cases ev with
  | response r =>
    by_cases h : r.statusCode ≠ 200
    · simp [byeAwait, h]
    · simp [byeAwait, h, Session.setState]
  | txDone m => rfl
  | ctxDone => rfl

@[simp]
theorem byeAwait_inviteRequest (s : Session) (ev : AwaitEv) :
    (byeAwait s ev).2.inviteRequest = s.inviteRequest := by
  cases ev with
  | response r =>
    by_cases h : r.statusCode ≠ 200
    · simp [byeAwait, h]
    · simp [byeAwait, h, Session.setState]
  | txDone m => rfl
  | ctxDone => rfl

@[simp]
theorem byeAwait_inviteResponse (s : Session) (ev : AwaitEv) :
    (byeAwait s ev).2.inviteResponse = s.inviteResponse := by
  cases ev with
  | response r =>
    by_cases h : r.statusCode ≠ 200
    · simp [byeAwait, h]
    · simp [byeAwait, h, Session.setState]
  | txDone m => rfl
  | ctxDone => rfl

@[simp]
theorem deferredCleanup_sess (w : World) : (deferredCleanup w).sess = w.sess := rfl

@[simp]
theorem deferredCleanup_registry (w : World) :
    (deferredCleanup w).registry = deleteReg w.sess.ID w.registry := rfl

/-- Shape of the world `Bye` leaves behind: either untouched (one of the
guard exits) or — once the deferred close/terminate pair is armed, which
requires a stored successful response — the handle is deregistered under
its identity and the captured INVITE is preserved. -/
theorem Bye_world (w : World) (env : ByeEnv) :
    (Bye w env).2.1 = w ∨
    ((∃ res0, w.sess.inviteResponse = some res0 ∧ res0.isSuccess = true) ∧
     (Bye w env).2.1.registry = deleteReg w.sess.ID w.registry ∧
     (Bye w env).2.1.sess.inviteRequest = w.sess.inviteRequest) := by
  unfold Bye
  by_cases hend : w.sess.state = .ended
  · rw [if_pos hend]
    exact Or.inl rfl
  rw [if_neg hend]
  rcases hir : w.sess.inviteResponse with _ | res
  · exact Or.inl rfl
  cases hsu : res.isSuccess with
  | false =>
    simp only [hsu]
    exact Or.inl rfl
  | true =>
    simp only [hsu, Bool.not_true, Bool.false_eq_true, if_false]
    right
    refine ⟨⟨res, rfl, hsu⟩, ?_⟩
    rcases hbw : byeWait w.sess.state env.timers env.resolver with ⟨o, st⟩
    cases o with
    | ctxCancelled => exact ⟨by simp, by simp⟩
    | proceed =>
      rcases hnb : newByeRequestUAS w.sess.inviteRequest res with _ | bye
      · exact ⟨by simp [hnb], by simp [hnb]⟩
      · rcases hck : byeCheckID bye with _ | byeID
        · exact ⟨by simp [hnb, hck], by simp [hnb, hck]⟩
        · by_cases hid2 : w.sess.ID = byeID
          · rcases htq : env.txReqRes with e | u
            · exact ⟨by simp [hnb, hck, hid2, htq], by simp [hnb, hck, hid2, htq]⟩
            · exact ⟨by simp [hnb, hck, hid2, htq], by simp [hnb, hck, hid2, htq]⟩
          · exact ⟨by simp [hnb, hck, hid2], by simp [hnb, hck, hid2]⟩

/-- An unregistered world satisfies the invariant after a final response. -/
theorem inv_of_regEmpty (w : World)
    (hcont2 : w.sess.inviteRequest.contactHdr.isSome = true)
    (hre : w.registry = []) : Inv w true :=
  ⟨hcont2, Or.inl hre, fun hne => absurd hre hne, fun hff => Bool.noConfusion hff⟩

@[simp]
theorem storeReg_nil (id : String) : storeReg id [] = [id] := by
  simp [storeReg]

/-- With a non-final (provisional) response, `WriteResponse` only stores
the contact-extended response on the record. -/
theorem WriteResponse_world_nonfinal (w : World) (res : Response) (env : WriteEnv)
    (hps : res.isSuccess = false) (hpp : res.isProvisional = true) :
    (WriteResponse w res env).2.1
      = { w with sess := { w.sess with
            inviteResponse := some (res.appendHeader (.contact w.contactHDR)) } } := by
  unfold WriteResponse
  rcases env.cancelPending with _ | creq <;> dsimp only
  · by_cases hd : (w.txTerminated || env.doneNow) = true
    · rw [if_pos hd]
    · rw [if_neg hd]
      rw [if_pos (by simp [hps])]
      rw [if_pos (by simp [hpp])]
      rcases env.respondRes with m | u <;> rfl

/-- One-step preservation of the invariant, provided the final-response
budget is respected. -/
theorem inv_step (w : World) (op : Op) (fw : Bool)
    (hInv : Inv w fw) (hop : fw = true → opFinal op = false) :
    Inv (step w op).2.1 (fw || opFinal op) := by
  obtain ⟨hcont, hsub, hregst, hinit⟩ := hInv
  cases op with
  | close =>
    simp only [step, Close, opFinal, Bool.or_false]
    have hre : deleteReg w.sess.ID w.registry = [] := by
      rcases hsub with h | h <;> simp [h]
    refine ⟨hcont, Or.inl hre, fun hne => absurd hre hne, ?_⟩
    intro hfw
    obtain ⟨h1, h2, h3⟩ := hinit hfw
    exact ⟨hre, h2, h3⟩
  | ack req =>
    simp only [step, ReadAck, opFinal, Bool.or_false]
    rcases hq : MakeDialogIDFromRequest req with e | id <;> dsimp only
    · exact ⟨hcont, hsub, hregst, hinit⟩
    · by_cases hfound : loadDialogFound w id = true
      · rw [if_pos hfound]
        refine ⟨hcont, hsub, fun _ => Or.inr rfl, ?_⟩
        intro hfw
        obtain ⟨h1, _, _⟩ := hinit hfw
        exfalso
        rw [loadDialogFound, h1] at hfound
        simp at hfound
      · rw [if_neg hfound]
        exact ⟨hcont, hsub, hregst, hinit⟩
  | byeIn req r =>
    simp only [step, ReadBye, opFinal, Bool.or_false]
    rcases hq : MakeDialogIDFromRequest req with e | id <;> dsimp only
    · exact ⟨hcont, hsub, hregst, hinit⟩
    · by_cases hfound : loadDialogFound w id = true
      · rw [if_pos hfound]
        have hnil : fw = false → False := by
          intro hfw
          obtain ⟨h1, _, _⟩ := hinit hfw
          rw [loadDialogFound, h1] at hfound
          simp at hfound
        have hre : deleteReg w.sess.ID w.registry = [] := by
          rcases hsub with h | h <;> simp [h]
        rcases r with m | u
        · exact ⟨hcont, Or.inl (by simp [hre]), fun hne => absurd (by simp [hre]) hne,
            fun hfw => absurd hfw (fun h => hnil h)⟩
        · refine ⟨by simpa using hcont, Or.inl (by simp [hre]),
            fun hne => absurd (by simp [hre]) hne,
            fun hfw => absurd hfw (fun h => hnil h)⟩
      · rw [if_neg hfound]
        exact ⟨hcont, hsub, hregst, hinit⟩
  | byeOut env =>
    simp only [step, opFinal, Bool.or_false]
    rcases Bye_world w env with h | ⟨⟨res0, hres0, hsu0⟩, hreg', hreq'⟩
    · rw [h]
      exact ⟨hcont, hsub, hregst, hinit⟩
    · have hfw : fw = true := by
        cases hfc : fw
        · obtain ⟨_, _, h3⟩ := hinit hfc
          exact absurd (h3 res0 hres0) (by simp [hsu0])
        · rfl
      have hregE : (Bye w env).2.1.registry = [] := by
        rw [hreg']
        rcases hsub with h | h <;> simp [h]
      refine ⟨by rw [hreq']; exact hcont, Or.inl hregE, fun hne => absurd hregE hne, ?_⟩
      intro hff
      rw [hfw] at hff
      exact Bool.noConfusion hff
  | writeRes res env =>
    by_cases hfin : 200 ≤ res.statusCode
    · -- a final response: uses the budget, so fw = false
      have hof : opFinal (Op.writeRes res env) = true := by
        simp [opFinal, hfin]
      have hfw0 : fw = false := by
        cases hfc : fw
        · rfl
        · have h2 := hop hfc
          rw [hof] at h2
          exact Bool.noConfusion h2
      obtain ⟨h1, h2, h3⟩ := hinit hfw0
      simp only [step, hof, Bool.or_true]
      unfold WriteResponse
      rcases env.cancelPending with _ | creq <;> dsimp only
      · by_cases hd : (w.txTerminated || env.doneNow) = true
        · rw [if_pos hd]
          exact inv_of_regEmpty _ hcont h1
        · rw [if_neg hd]
          by_cases hsu : (res.appendHeader (.contact w.contactHDR)).isSuccess = true
          · rw [if_neg (by simp [hsu])]
            rcases hq : MakeDialogIDFromResponse (res.appendHeader (.contact w.contactHDR))
              with e | id
            · exact inv_of_regEmpty _ hcont h1
            · rcases env.respondRes with m | u
              · exact inv_of_regEmpty _ hcont (by simp [h1])
              · refine ⟨hcont, Or.inr (by simp [h1]), fun _ => Or.inl rfl, ?_⟩
                intro hff
                exact Bool.noConfusion hff
          · have hsu2 : (res.appendHeader (.contact w.contactHDR)).isSuccess = false :=
              Bool.eq_false_iff.mpr hsu
            rw [if_pos (by simp [hsu2])]
            rw [if_neg (by simp [Response.isProvisional]; omega)]
            rcases env.respondRes with m | u
            · exact inv_of_regEmpty _ hcont h1
            · exact inv_of_regEmpty _ hcont h1
      · exact inv_of_regEmpty _ hcont h1
    · -- a provisional response: nothing but the stored response changes
      have hof : opFinal (Op.writeRes res env) = false := by
        simp [opFinal, hfin]
      have hps : res.isSuccess = false := by
        simp [Response.isSuccess]
        omega
      have hpp : res.isProvisional = true := by
        simp [Response.isProvisional]
        omega
      simp only [step, hof, Bool.or_false]
      rw [WriteResponse_world_nonfinal w res env hps hpp]
      refine ⟨hcont, hsub, hregst, ?_⟩
      intro hfw
      obtain ⟨h1, h2, h3⟩ := hinit hfw
      refine ⟨h1, h2, ?_⟩
      intro r hr
      have hr2 : res.appendHeader (.contact w.contactHDR) = r := by
        simpa using hr
      rw [← hr2]
      simpa using hps

/-- Once `Ended` (and deregistered, per the invariant), no non-final
operation moves the state anywhere else. -/
theorem ended_step (w : World) (op : Op)
    (hInv : Inv w true) (hop : opFinal op = false)
    (he : w.sess.state = .ended) :
    (step w op).2.1.sess.state = .ended := by
  obtain ⟨hcont, hsub, hregst, _⟩ := hInv
  have hreg : w.registry = [] := by
    rcases hsub with h | h
    · exact h
    · exfalso
      rcases hregst (by simp [h]) with h2 | h2 <;> rw [he] at h2 <;>
        exact DialogState.noConfusion h2
  cases op with
  | close =>
    simpa [step, Close] using he
  | ack req =>
    simp only [step, ReadAck]
    rcases hq : MakeDialogIDFromRequest req with e | id <;> dsimp only
    · exact he
    · rw [if_neg (by rw [loadDialogFound, hreg]; simp)]
      exact he
  | byeIn req r =>
    simp only [step, ReadBye]
    rcases hq : MakeDialogIDFromRequest req with e | id <;> dsimp only
    · exact he
    · rw [if_neg (by rw [loadDialogFound, hreg]; simp)]
      exact he
  | byeOut env =>
    simp only [step, Bye]
    rw [if_pos he]
    exact he
  | writeRes res env =>
    have hfin : ¬ 200 ≤ res.statusCode := by
      simpa [opFinal] using hop
    have hps : res.isSuccess = false := by
      simp [Response.isSuccess]
      omega
    have hpp : res.isProvisional = true := by
      simp [Response.isProvisional]
      omega
    simp only [step]
    rw [WriteResponse_world_nonfinal w res env hps hpp]
    exact he

/-- Running a trace distributes over list append. -/
theorem run_append (w : World) (l₁ l₂ : List Op) :
    run w (l₁ ++ l₂) = run (run w l₁) l₂ := by
  induction l₁ generalizing w with
  | nil => rfl
  | cons op rest ih =>
    simp only [List.cons_append, run]
    exact ih _

/-- Run-level invariant: with at most one final response in the whole
trace (counting ones already consumed), the invariant is maintained, and
the flag can only grow by the number of final operations consumed. -/
theorem inv_run (ops : List Op) :
    ∀ (w : World) (fw : Bool), Inv w fw →
    fw.toNat + ops.countP opFinal ≤ 1 →
    ∃ fw', Inv (run w ops) fw' ∧ fw.toNat ≤ fw'.toNat ∧
      fw'.toNat ≤ fw.toNat + ops.countP opFinal := by
  induction ops with
  | nil =>
    intro w fw h _
    exact ⟨fw, h, Nat.le_refl _, by simp⟩
  | cons op rest ih =>
    intro w fw h hb
    rw [List.countP_cons] at hb
    have hop : fw = true → opFinal op = false := by
      intro hfw
      cases hof : opFinal op
      · rfl
      · exfalso
        rw [hfw, hof] at hb
        simp at hb
    have h1 := inv_step w op fw h hop
    have hb1 : (fw || opFinal op).toNat + rest.countP opFinal ≤ 1 := by
      cases fw with
      | true =>
        rw [hop rfl] at hb ⊢
        simpa using hb
      | false =>
        cases hof : opFinal op with
        | false =>
          rw [hof] at hb
          simpa using hb
        | true =>
          rw [hof] at hb
          simp at hb
          have hz : rest.countP opFinal = 0 :=
            List.countP_eq_zero.mpr (by intro a ha; simpa using hb a ha)
          simp [hz]
    obtain ⟨fw', hi, hle1, hle2⟩ := ih _ _ h1 hb1
    refine ⟨fw', hi, ?_, ?_⟩
    · refine Nat.le_trans ?_ hle1
      cases fw <;> simp
    · refine Nat.le_trans hle2 ?_
      rw [List.countP_cons]
      cases fw <;> cases hof : opFinal op <;> simp <;> omega

/-- Run-level terminality: once `Ended` with the invariant and no final
operations left, the state stays `Ended`. -/
theorem ended_run (l : List Op) :
    ∀ (w : World), Inv w true → l.countP opFinal = 0 →
    w.sess.state = .ended → (run w l).sess.state = .ended := by
  induction l with
  | nil =>
    intro w _ _ he
    exact he
  | cons op rest ih =>
    intro w h hc he
    have hof : opFinal op = false := by
      cases hof2 : opFinal op
      · rfl
      · rw [List.countP_cons, hof2] at hc
        simp at hc
    have h1 : Inv (step w op).2.1 (true || opFinal op) :=
      inv_step w op true h (fun _ => hof)
    rw [Bool.true_or] at h1
    have he1 := ended_step w op h hof he
    have hc1 : rest.countP opFinal = 0 := by
      rw [List.countP_cons, hof] at hc
      simpa using hc
    exact ih _ h1 hc1 he1

/-- Claim C4 (amended): for every trace from `ReadInvite` in which at most
one final (status ≥ 200) response is passed to `WriteResponse`: the handle
appears in the registry only while `Established` or `Confirmed`; once
`Ended` it is absent from the registry; and once a prefix of the trace has
reached `Ended`, the rest of the trace leaves the state `Ended`
(terminality). Without the single-final-response restriction the claim is
false (see the counterexample). -/
theorem c4_registry_state_invariant (c : NameAddr) (req : Request) (w1 : World)
    (l₁ l₂ : List Op)
    (h0 : ReadInvite c req = .ok w1)
    (hbud : (l₁ ++ l₂).countP opFinal ≤ 1) :
    ((run w1 (l₁ ++ l₂)).registry ≠ [] →
      (run w1 (l₁ ++ l₂)).sess.state = .established ∨
        (run w1 (l₁ ++ l₂)).sess.state = .confirmed) ∧
    ((run w1 (l₁ ++ l₂)).sess.state = .ended → (run w1 (l₁ ++ l₂)).registry = []) ∧
    ((run w1 l₁).sess.state = .ended → (run w1 (l₁ ++ l₂)).sess.state = .ended) := by
  have hInv0 : Inv w1 false := by
    unfold ReadInvite at h0
    rcases hct : req.contactHdr with _ | cont
    · rw [hct] at h0
      exact Except.noConfusion h0
    · rw [hct] at h0
      injection h0 with h0'
      subst h0'
      exact ⟨by simp [hct], Or.inl rfl, fun hne => absurd rfl hne,
        fun _ => ⟨rfl, rfl, fun r hr => Option.noConfusion hr⟩⟩
  have htot : (false : Bool).toNat + (l₁ ++ l₂).countP opFinal ≤ 1 := by
    simpa using hbud
  obtain ⟨fw, hInv, _, _⟩ := inv_run (l₁ ++ l₂) w1 false hInv0 htot
  obtain ⟨hcont, hsub, hregst, hinit⟩ := hInv
  refine ⟨hregst, ?_, ?_⟩
  · intro hend
    rcases hsub with h | h
    · exact h
    · rcases hregst (by simp [h]) with h2 | h2 <;> rw [hend] at h2 <;>
        exact DialogState.noConfusion h2
  · intro hpre
    have hl1 : (false : Bool).toNat + l₁.countP opFinal ≤ 1 := by
      rw [List.countP_append] at hbud
      simp
      omega
    obtain ⟨fw1, hInv1, _, hle⟩ := inv_run l₁ w1 false hInv0 hl1
    have hfw1 : fw1 = true := by
      cases hf : fw1
      · obtain ⟨_, hst2, _⟩ := hInv1.2.2.2 hf
        rw [hpre] at hst2
        exact DialogState.noConfusion hst2
      · rfl
    have hc2 : l₂.countP opFinal = 0 := by
      rw [List.countP_append] at hbud
      rw [hfw1] at hle
      have h1 : 1 ≤ 0 + l₁.countP opFinal := hle
      omega
    rw [hfw1] at hInv1
    rw [run_append]
    exact ended_run l₂ (run w1 l₁) hInv1 hc2 hpre

/-- Witness for C4 (amended): 200 OK answered, inbound BYE ends and
deregisters the dialog, and a stray ACK afterwards leaves the state
`Ended`. -/
theorem c4_registry_state_invariant_witness :
    (run w0 [Op.writeRes res200 envOk, Op.byeIn ackReq (.ok ()),
             Op.ack ackReq]).sess.state = DialogState.ended :=
  (c4_registry_state_invariant contactSrv inviteReq w0
      [Op.writeRes res200 envOk, Op.byeIn ackReq (.ok ())] [Op.ack ackReq]
      rfl (by decide)).2.2 rfl

end SipGo
